import Mathlib

/-!
Shallow embedding of the APPLE picker driver (apple.py): the configuration
derivation and validation done in Apple.__init__ and Apple.verify_input_values,
the output-directory bootstrap, the batch dispatch in Apple.pick_particles,
and the threshold-repair loop in Apple.process_micrograph.

Python integers are modelled as Int; the float arithmetic used for the
derived parameters (np.round, true division, qBox) is modelled exactly over
Rat — for the magnitudes involved (inputs below 3000, divisors 3, 4, 6, 10,
100) the float64 computations in the source are exact or round far from the
decision boundaries, so the rational model agrees with the source.
-/

/-! ## Segmentation grids and the threshold-repair loop (process_micrograph) -/

/-- A binary segmentation grid as returned by Picker.runSVM: one cell
(particle = 1 / background = 0) per classification window. -/
structure SegGrid where
  rows : Nat
  cols : Nat
  cell : Nat → Nat → Bool

/-- Test np.array_equal(segmentation, np.ones(segmentation.shape)):
every cell of the grid equals 1 (vacuously true for a zero-cell grid). -/
def isAllOnes (g : SegGrid) : Bool :=
  decide (∀ i < g.rows, ∀ j < g.cols, g.cell i j = true)

/-- Test np.array_equal(segmentation, np.zeros(segmentation.shape)):
every cell of the grid equals 0 (vacuously true for a zero-cell grid). -/
def isAllZeros (g : SegGrid) : Bool :=
  decide (∀ i < g.rows, ∀ j < g.cols, g.cell i j = false)

/-- The while-loop of Apple.process_micrograph. The classifier is modelled by
the sequence of grids it returns on successive calls (Picker.runSVM is invoked
with the same arguments on every iteration; the job-local tau1/tau2 updates
are not passed back to it, so the call index is the only thing that varies).
The fuel argument bounds the number of iterations observed — the source loop
itself has no bound, so a run that never reaches a mixed grid is modelled by
the loop returning none for every fuel. On exit it returns the job-local
(tau1, tau2) together with the index of the call whose grid was accepted. -/
def repairLoopFrom (grids : Nat → SegGrid) : Nat → Int → Int → Nat → Option (Int × Int × Nat)
  | _, _, _, 0 => none
  | i, t1, t2, fuel + 1 =>
    if isAllOnes (grids i) then repairLoopFrom grids (i + 1) t1 (t2 + 500) fuel
    else if isAllZeros (grids i) then repairLoopFrom grids (i + 1) (t1 + 500) t2 fuel
    else some (t1, t2, i)

/-- The threshold-repair loop started at the first classifier call with the
job-local tau values initialised from the resolved configuration. -/
def repairLoop (grids : Nat → SegGrid) (t1 t2 : Int) (fuel : Nat) : Option (Int × Int × Nat) :=
  repairLoopFrom grids 0 t1 t2 fuel

/-- The job-local (tau1, tau2) after n executions of the loop body of
Apple.process_micrograph (lines 180-184), regardless of whether the loop has
already exited: each body run increments tau2 by 500 on an all-ones grid,
else tau1 by 500 on an all-zeros grid, else leaves both unchanged. -/
def loopTaus (grids : Nat → SegGrid) (t1 t2 : Int) : Nat → Int × Int
  | 0 => (t1, t2)
  | n + 1 =>
    let p := loopTaus grids t1 t2 n
    if isAllOnes (grids n) then (p.1, p.2 + 500)
    else if isAllZeros (grids n) then (p.1 + 500, p.2)
    else p

/-! ## Python numeric helpers -/

/-- Model of np.round on the exact value of the float argument: round half to
even (banker's rounding). Mathlib's round rounds half away from zero upward,
so the tie is special-cased. -/
def npRound (x : ℚ) : Int :=
  if x - ⌊x⌋ = 1 / 2 then (if 2 ∣ ⌊x⌋ then ⌊x⌋ else ⌊x⌋ + 1) else round x

/-- Model of Python int() applied to a float: truncation toward zero. -/
def pyInt (x : ℚ) : Int :=
  if 0 ≤ x then ⌊x⌋ else ⌈x⌉

/-! ## Path handling (os.path.dirname / abspath / str.replace) -/

/-- Character predicate used when scanning for '/' separators. -/
def notSlash (c : Char) : Bool := decide (¬ c = '/')

/-- Character predicate used when scanning for the last '.' of a basename. -/
def notDot (c : Char) : Bool := decide (¬ c = '.')

/-- Character test for '.'. -/
def isDot (c : Char) : Bool := decide (c = '.')

/-- Character test for '/'. -/
def isSlash (c : Char) : Bool := decide (c = '/')

/-- Model of str.split('/') as used by posixpath.normpath: empty pieces are
kept, the empty string splits to one empty piece. -/
def splitSlash : List Char → List (List Char)
  | [] => [[]]
  | c :: rest =>
    let r := splitSlash rest
    if c = '/' then [] :: r
    else (c :: r.headD []) :: r.tail

/-- Model of os.path.dirname (posixpath): everything up to the last '/',
with trailing slashes stripped unless the head consists only of slashes;
the empty string when the path has no '/'. -/
def dirname (p : List Char) : List Char :=
  if '/' ∈ p then
    let head := (p.reverse.dropWhile notSlash).reverse
    if head.all isSlash then head
    else (head.reverse.dropWhile isSlash).reverse
  else []

/-- Number of leading slashes posixpath.normpath preserves: two slashes are
kept verbatim (POSIX allows an implementation-defined meaning for exactly
two), any other positive count collapses to one. -/
def initialSlashCount (l : List Char) : Nat :=
  if l.take 1 = ['/'] then
    if l.take 2 = ['/', '/'] ∧ ¬ l.take 3 = ['/', '/', '/'] then 2 else 1
  else 0

/-- Model of posixpath.normpath: drop empty and '.' components, resolve '..'
against preceding components, and re-join with the preserved leading
slashes; the empty result becomes '.'. -/
def normpath (l : List Char) : List Char :=
  if l = [] then ['.']
  else
    let slashes := initialSlashCount l
    let comps := splitSlash l
    let newComps := comps.foldl
      (fun acc comp =>
        if comp = [] ∨ comp = ['.'] then acc
        else if ¬ comp = ['.', '.'] ∨ (slashes = 0 ∧ acc = []) ∨ acc.getLast? = some ['.', '.'] then
          acc ++ [comp]
        else if ¬ acc = [] then acc.dropLast
        else acc)
      []
    let joined := List.replicate slashes '/' ++ List.intercalate ['/'] newComps
    if joined = [] then ['.'] else joined

/-- Model of posixpath.join for two arguments, as used by abspath on a
relative path. -/
def pyJoin (a b : List Char) : List Char :=
  if b.take 1 = ['/'] then b
  else if a = [] ∨ a.getLast? = some '/' then a ++ b
  else a ++ '/' :: b

/-- Model of os.path.abspath: join with the process working directory when
the path is relative, then normalise. The working directory is passed
explicitly since it is process state. -/
def abspath (cwd p : List Char) : List Char :=
  if p.take 1 = ['/'] then normpath p else normpath (pyJoin cwd p)

/-- Worker for pyReplace on a nonempty pattern p :: pt: leftmost,
non-overlapping replacement of every occurrence, scanning left to right.
The fuel argument only drives structural recursion; it is initialised to the
string length, which one unfolding per consumed character never exhausts. -/
def replaceAuxF (p : Char) (pt rep : List Char) : Nat → List Char → List Char
  | 0, s => s
  | _, [] => []
  | fuel + 1, c :: rest =>
    if (p :: pt).isPrefixOf (c :: rest) then rep ++ replaceAuxF p pt rep fuel (rest.drop pt.length)
    else c :: replaceAuxF p pt rep fuel rest

/-- Model of Python str.replace(pat, rep): replace every occurrence of pat,
leftmost first, non-overlapping. An empty pattern inserts rep before every
character and at the end, as Python does. -/
def pyReplace (s pat rep : List Char) : List Char :=
  match pat with
  | [] => rep ++ (s.map (fun c => c :: rep)).flatten
  | p :: pt => replaceAuxF p pt rep s.length s

/-- The output-directory derivation of Apple.__init__ (lines 54-56):
path = os.path.dirname(mrc_dir); abs_path = os.path.abspath(mrc_dir);
output_dir = abs_path.replace(path, 'star_dir'). -/
def deriveOutputDir (cwd mrc_dir : List Char) : List Char :=
  pyReplace (abspath cwd mrc_dir) (dirname mrc_dir) "star_dir".toList

/-! ## Configuration model (Apple.__init__ / verify_input_values) -/

/-- Which validation check of Apple.verify_input_values fired, in source
order. -/
inductive ConfigCheck
  | maxParticleSize
  | queryImageSize
  | particleSize
  | minParticleSize
  | tau1Range
  | tau2Range
  | overlap
  | containerSize
  | particleVsQuery
  | procCount
deriving DecidableEq, Repr

/-- Errors the modelled code can raise: ConfigError from a validation check,
Python ZeroDivisionError from the qBox or tau-bound divisions,
TypeError from comparing None with an int, and FileExistsError from
os.makedirs on an existing directory. -/
inductive PyError
  | configError (check : ConfigCheck)
  | zeroDivisionError
  | typeError
  | fileExistsError
deriving DecidableEq, Repr

/-- The user/default-supplied configuration (the ApplePickerConfig fields
read by Apple.__init__). Optional fields model None. -/
structure RawConfig where
  particle_size : Int
  query_image_size : Option Int
  query_window_size : Option Int
  max_particle_size : Option Int
  min_particle_size : Option Int
  minimum_overlap_amount : Option Int
  tau1 : Option Int
  tau2 : Option Int
  container_size : Option Int
  proc : Option Int
  output_dir : Option (List Char)
deriving DecidableEq, Repr

/-- The attribute state of the Apple object after the derivation block of
__init__ (lines 38-65), i.e. the input of verify_input_values. container_size
and proc carry no derivation rule, so they stay optional. -/
structure DerivedConfig where
  particle_size : Int
  query_image_size : Int
  query_window_size : Option Int
  max_particle_size : Int
  min_particle_size : Int
  minimum_overlap_amount : Int
  tau1 : Int
  tau2 : Int
  container_size : Option Int
  proc : Option Int
  output_dir : List Char
deriving DecidableEq, Repr

/-- Lines 38-40 of Apple.__init__: the local variable query_window_size,
np.round(particle_size * 2 / 3) lowered to the nearest multiple of 4 by
subtracting its remainder mod 4 (Python % on a positive modulus, i.e. emod). -/
def query_window_size_calc (particle_size : Int) : Int :=
  let q := npRound ((particle_size : ℚ) * 2 / 3)
  q - q % 4

/-- The derivation block of Apple.__init__ (lines 38-65): compute the local
query_window_size and store it into query_image_size unconditionally, default
the None fields, derive output_dir when unset, then compute
qBox = 4000^2 / query_image_size^2 * 4 — a ZeroDivisionError when the stored
query_image_size is 0 — and default tau1/tau2 from it. -/
def applyDerive (cwd mrc_dir : List Char) (c : RawConfig) : Except PyError DerivedConfig :=
  let qis := query_window_size_calc c.particle_size
  let maxp := c.max_particle_size.getD (c.particle_size * 4)
  let minp := c.min_particle_size.getD (pyInt ((c.particle_size : ℚ) / 6))
  let moa := c.minimum_overlap_amount.getD (pyInt ((c.particle_size : ℚ) / 10))
  let odir := c.output_dir.getD (deriveOutputDir cwd mrc_dir)
  if qis = 0 then .error .zeroDivisionError
  else
    let qBox : ℚ := (4000 : ℚ) ^ 2 / (qis : ℚ) ^ 2 * 4
    let t1 := c.tau1.getD (pyInt (qBox * 3 / 100))
    let t2 := c.tau2.getD (pyInt (qBox * 30 / 100))
    .ok ⟨c.particle_size, qis, c.query_window_size, maxp, minp, moa, t1, t2,
         c.container_size, c.proc, odir⟩

/-- Apple.verify_input_values, check for check in source order. Comparing an
unset (None) container_size or proc against an int raises TypeError, as
Python's chained comparison does; the tau bound (4000 / query_image_size * 2)^2
re-divides by query_image_size, raising ZeroDivisionError when it is 0. -/
def verify_input_values (c : DerivedConfig) : Except PyError Unit :=
  if ¬ (1 ≤ c.max_particle_size ∧ c.max_particle_size ≤ 3000) then
    .error (.configError .maxParticleSize)
  else if ¬ (1 ≤ c.query_image_size ∧ c.query_image_size ≤ 3000) then
    .error (.configError .queryImageSize)
  else if ¬ (5 ≤ c.particle_size ∧ c.particle_size < 3000) then
    .error (.configError .particleSize)
  else if ¬ (1 ≤ c.min_particle_size ∧ c.min_particle_size < 3000) then
    .error (.configError .minParticleSize)
  else if c.query_image_size = 0 then .error .zeroDivisionError
  else
    let maxTau : ℚ := ((4000 : ℚ) / (c.query_image_size : ℚ) * 2) ^ 2
    if ¬ (0 ≤ (c.tau1 : ℚ) ∧ (c.tau1 : ℚ) ≤ maxTau) then
      .error (.configError .tau1Range)
    else if ¬ (0 ≤ (c.tau2 : ℚ) ∧ (c.tau2 : ℚ) ≤ maxTau) then
      .error (.configError .tau2Range)
    else if ¬ (0 ≤ c.minimum_overlap_amount ∧ c.minimum_overlap_amount ≤ 3000) then
      .error (.configError .overlap)
    else
      match c.container_size with
      | none => .error .typeError
      | some cs =>
        if ¬ (c.particle_size ≤ cs ∧ cs ≤ 1900) then
          .error (.configError .containerSize)
        else if c.particle_size < c.query_image_size then
          .error (.configError .particleVsQuery)
        else
          match c.proc with
          | none => .error .typeError
          | some pr =>
            if pr < 1 then .error (.configError .procCount) else .ok ()

/-- Apple.__init__ as a function: derive, then validate, returning the
derived attribute state on success. -/
def resolveConfig (cwd mrc_dir : List Char) (c : RawConfig) : Except PyError DerivedConfig :=
  match applyDerive cwd mrc_dir c with
  | .error e => .error e
  | .ok d =>
    match verify_input_values d with
    | .error e => .error e
    | .ok _ => .ok d

/-! ## Output-directory side effect (lines 53-58)

The filesystem is modelled as the list of existing directories. -/

/-- Model of os.makedirs: create the directory, failing with
FileExistsError when it already exists. -/
def makedirs (fs : List (List Char)) (d : List Char) : Except PyError (List (List Char)) :=
  if d ∈ fs then .error .fileExistsError else .ok (d :: fs)

/-- Lines 53-58 of Apple.__init__: when output_dir is unset, derive it from
mrc_dir and create it unless os.path.exists says it is already there.
Returns the resulting output_dir and the filesystem after the call. -/
def outputDirStep (cwd mrc_dir : List Char) (odir : Option (List Char))
    (fs : List (List Char)) : Except PyError (List Char × List (List Char)) :=
  match odir with
  | some d => .ok (d, fs)
  | none =>
    let d := deriveOutputDir cwd mrc_dir
    if d ∈ fs then .ok (d, fs)
    else
      match makedirs fs d with
      | .error e => .error e
      | .ok fs2 => .ok (d, fs2)

/-! ## Batch dispatch (pick_particles / process_micrograph) -/

/-- Whether glob.glob(mrc_dir ++ "/*.mrc") matches a directory entry: the
name must end in ".mrc" and — because the pattern does not itself start with
a dot — glob treats names with a leading dot as hidden and never matches
them. Enumeration is of direct entries only; entry names contain no '/'. -/
def globMrcMatch (name : List Char) : Bool :=
  decide (¬ name.take 1 = ['.']) && List.isSuffixOf ".mrc".toList name

/-- Model of os.path.splitext, extension part: the suffix of the basename
from its last dot on, empty when the basename has no dot or when every
character before that dot is itself a dot (leading dots are not an
extension separator). -/
def splitextExt (p : List Char) : List Char :=
  let base := (p.reverse.takeWhile notSlash).reverse
  let after := base.reverse.takeWhile notDot
  if after.length = base.length then []
  else if (base.take (base.length - after.length - 1)).all isDot then []
  else '.' :: after.reverse

/-- The guard of Apple.process_micrograph (line 144): the external picking
pipeline (Picker.*) runs exactly when os.path.splitext reports the extension
".mrc". -/
def process_micrograph_runs (name : List Char) : Bool :=
  decide (splitextExt name = ".mrc".toList)

/-- The filenames Apple.pick_particles dispatches to the pool: the basenames
of the glob matches, one per matching directory entry, in enumeration
order. -/
def pickParticlesDispatch (entries : List (List Char)) : List (List Char) :=
  entries.filter globMrcMatch

/-- Model of multiprocessing.Pool(proc).map: the function is applied exactly
once to every item and the results are returned in input order; the pool
size only affects scheduling, not the result. -/
def poolMap {α : Type} (proc : Nat) (f : List Char → α) (l : List (List Char)) : List α :=
  let _ := proc
  l.map f

/-- One batch run of Apple.pick_particles, recording for every dispatched
filename whether the external pipeline was invoked on it. -/
def pickParticlesRun (proc : Nat) (entries : List (List Char)) : List (List Char × Bool) :=
  poolMap proc (fun n => (n, process_micrograph_runs n)) (pickParticlesDispatch entries)

/-- Model of Pool.map over fallible per-file jobs: the map result is the list
of all job results, and any job raising an error makes the whole map raise
instead of returning a partial result list (the parent re-raises when it
joins the pool). -/
def exceptMapList (job : List Char → Except PyError Unit) :
    List (List Char) → Except PyError (List Unit)
  | [] => .ok []
  | x :: xs =>
    match job x with
    | .error e => .error e
    | .ok y =>
      match exceptMapList job xs with
      | .error e => .error e
      | .ok ys => .ok (y :: ys)

/-- Apple.pick_particles with the per-file work abstracted as a fallible job
(the job body is external-pipeline work that may raise a ProcessingError). -/
def pickParticlesBatch (proc : Nat) (job : List Char → Except PyError Unit)
    (entries : List (List Char)) : Except PyError (List Unit) :=
  let _ := proc
  exceptMapList job (pickParticlesDispatch entries)

/-! ## Helper lemmas -/

/-- A zero-cell grid passes both uniformity tests of the loop. -/
theorem degenerate_grid_both (g : SegGrid) (h : g.rows = 0 ∨ g.cols = 0) :
    isAllOnes g = true ∧ isAllZeros g = true := by
  constructor <;>
  · apply decide_eq_true
    intro i hi j hj
    rcases h with h | h
    · exact absurd hi (by omega)
    · exact absurd hj (by omega)

/-- The zero-cell grid: the degenerate classifier output with no windows. -/
def emptyGrid : SegGrid := ⟨0, 0, fun _ _ => false⟩

/-- On a classifier that always returns the empty grid the loop never
exits, whatever the fuel and the starting state. -/
theorem repairLoopFrom_empty_none :
    ∀ fuel i t1 t2, repairLoopFrom (fun _ => emptyGrid) i t1 t2 fuel = none := by
  intro fuel
  induction fuel with
  | zero => intro i t1 t2; rfl
  | succ n ih =>
    intro i t1 t2
    rw [repairLoopFrom]
    rw [if_pos (degenerate_grid_both emptyGrid (Or.inl rfl)).1]
    exact ih (i + 1) t1 (t2 + 500)

/-! ## Claim C1 -/

/-- C1: in the threshold-repair loop of process_micrograph, when the
classifier returns an all-ones grid on the first call and a mixed grid on the
second, the loop exits after exactly one retry (the accepted grid is the one
of call index 1) with the job-local tau2 increased by exactly 500 and tau1
unchanged; symmetrically, an all-zeros first grid (a grid of zeros with at
least one cell, so that the all-ones test does not fire first) increments
tau1 by 500 and leaves tau2 unchanged. -/
theorem repair_loop_single_retry (grids : Nat → SegGrid) (t1 t2 : Int) (fuel : Nat)
    (hfuel : 2 ≤ fuel) :
    (isAllOnes (grids 0) = true →
      isAllOnes (grids 1) = false → isAllZeros (grids 1) = false →
      repairLoop grids t1 t2 fuel = some (t1, t2 + 500, 1)) ∧
    (isAllOnes (grids 0) = false → isAllZeros (grids 0) = true →
      isAllOnes (grids 1) = false → isAllZeros (grids 1) = false →
      repairLoop grids t1 t2 fuel = some (t1 + 500, t2, 1)) := by
  obtain ⟨f, rfl⟩ : ∃ f, fuel = f + 2 := ⟨fuel - 2, by omega⟩
  constructor
  · intro h0 h1 h2
    simp [repairLoop, repairLoopFrom, h0, h1, h2]
  · intro h0 h0z h1 h2
    simp [repairLoop, repairLoopFrom, h0, h0z, h1, h2]

/-- A classifier trace: all-ones 1x1 grid first, then a mixed 1x2 grid. -/
def gridsOnesThenMixed : Nat → SegGrid :=
  fun n => if n = 0 then ⟨1, 1, fun _ _ => true⟩ else ⟨1, 2, fun _ j => decide (j = 0)⟩

/-- A classifier trace: all-zeros 1x1 grid first, then a mixed 1x2 grid. -/
def gridsZerosThenMixed : Nat → SegGrid :=
  fun n => if n = 0 then ⟨1, 1, fun _ _ => false⟩ else ⟨1, 2, fun _ j => decide (j = 0)⟩

/-- Witness for C1 at a concrete classifier trace and tau1 = 48, tau2 = 480. -/
theorem repair_loop_single_retry_witness :
    repairLoop gridsOnesThenMixed 48 480 2 = some (48, 980, 1) ∧
    repairLoop gridsZerosThenMixed 48 480 2 = some (548, 480, 1) := by
  constructor
  · exact (repair_loop_single_retry gridsOnesThenMixed 48 480 2 (by norm_num)).1
      (by decide) (by decide) (by decide)
  · exact (repair_loop_single_retry gridsZerosThenMixed 48 480 2 (by norm_num)).2
      (by decide) (by decide) (by decide) (by decide)

/-! ## Claim C9 -/

/-- C9: the loop exits on an iteration exactly when that iteration's grid is
neither uniformly 1 nor uniformly 0; a zero-cell grid satisfies both
uniformity tests; and since the all-ones test is checked first, a classifier
that returns zero-cell grids makes every iteration increment tau2 (tau1
stays at its initial value) and the loop never exits at any fuel. -/
theorem repair_loop_empty_grid_divergence (t1 t2 : Int) :
    (∀ grids : Nat → SegGrid,
      (∃ r, repairLoop grids t1 t2 1 = some r) ↔
        isAllOnes (grids 0) = false ∧ isAllZeros (grids 0) = false) ∧
    (∀ g : SegGrid, g.rows = 0 ∨ g.cols = 0 → isAllOnes g = true ∧ isAllZeros g = true) ∧
    (∀ fuel, repairLoop (fun _ => emptyGrid) t1 t2 fuel = none) ∧
    (∀ n, loopTaus (fun _ => emptyGrid) t1 t2 n = (t1, t2 + 500 * n)) := by
  refine ⟨?_, degenerate_grid_both, ?_, ?_⟩
  · intro grids
    cases h1 : isAllOnes (grids 0) <;> cases h2 : isAllZeros (grids 0) <;>
      simp [repairLoop, repairLoopFrom, h1, h2]
  · intro fuel
    exact repairLoopFrom_empty_none fuel 0 t1 t2
  · intro n
    induction n with
    | zero => simp [loopTaus]
    | succ m ih =>
      rw [loopTaus]
      rw [if_pos (degenerate_grid_both emptyGrid (Or.inl rfl)).1]
      rw [ih]
      simp only [Prod.mk.injEq]
      constructor
      · trivial
      · push_cast
        ring

/-- Witness for C9 at tau1 = 48, tau2 = 480 and three loop iterations. -/
theorem repair_loop_empty_grid_divergence_witness :
    isAllOnes emptyGrid = true ∧ isAllZeros emptyGrid = true ∧
    repairLoop (fun _ => emptyGrid) 48 480 3 = none ∧
    loopTaus (fun _ => emptyGrid) 48 480 3 = (48, 1980) := by
  have h := repair_loop_empty_grid_divergence 48 480
  refine ⟨(h.2.1 emptyGrid (Or.inl rfl)).1, (h.2.1 emptyGrid (Or.inl rfl)).2,
    h.2.2.1 3, ?_⟩
  rw [h.2.2.2 3]
  norm_num

/-! ## Configuration helper lemmas -/

deriving instance DecidableEq for Except

/-- When the computed window size is nonzero, the derivation block succeeds
and returns exactly the attribute state built from the defaulting rules. -/
theorem applyDerive_ok (cwd mrc : List Char) (c : RawConfig)
    (hq : ¬ query_window_size_calc c.particle_size = 0) :
    applyDerive cwd mrc c = .ok ⟨c.particle_size, query_window_size_calc c.particle_size,
      c.query_window_size,
      c.max_particle_size.getD (c.particle_size * 4),
      c.min_particle_size.getD (pyInt ((c.particle_size : ℚ) / 6)),
      c.minimum_overlap_amount.getD (pyInt ((c.particle_size : ℚ) / 10)),
      c.tau1.getD (pyInt ((4000 : ℚ) ^ 2 / ((query_window_size_calc c.particle_size : ℚ)) ^ 2 * 4 * 3 / 100)),
      c.tau2.getD (pyInt ((4000 : ℚ) ^ 2 / ((query_window_size_calc c.particle_size : ℚ)) ^ 2 * 4 * 30 / 100)),
      c.container_size, c.proc,
      c.output_dir.getD (deriveOutputDir cwd mrc)⟩ := by
  simp only [applyDerive]
  rw [if_neg hq]

/-- When the computed window size is zero, the derivation block raises
ZeroDivisionError (qBox divides by query_image_size squared). -/
theorem applyDerive_zero_div (cwd mrc : List Char) (c : RawConfig)
    (hq : query_window_size_calc c.particle_size = 0) :
    applyDerive cwd mrc c = .error .zeroDivisionError := by
  simp only [applyDerive]
  rw [if_pos hq]

/-- verify_input_values reports the max-particle-size check first whenever
that bound is violated. -/
theorem verify_fails_max (d : DerivedConfig)
    (h : ¬ (1 ≤ d.max_particle_size ∧ d.max_particle_size ≤ 3000)) :
    verify_input_values d = .error (.configError .maxParticleSize) := by
  unfold verify_input_values
  rw [if_pos h]

/-- resolveConfig on a successful derivation is validation followed by
returning the derived state. -/
theorem resolveConfig_ok_step (cwd mrc : List Char) (c : RawConfig) (d : DerivedConfig)
    (h : applyDerive cwd mrc c = .ok d) :
    resolveConfig cwd mrc c =
      match verify_input_values d with
      | .error e => .error e
      | .ok _ => .ok d := by
  unfold resolveConfig
  rw [h]

/-- Evaluation rule for npRound away from a half-integer tie. -/
theorem npRound_eval (x : ℚ) (n : Int) (hne : ¬ x - ⌊x⌋ = 1 / 2) (h : round x = n) :
    npRound x = n := by
  unfold npRound
  rw [if_neg hne, h]

/-- The window size computed from particle_size = 3: round(2) lowered by
2 % 4 gives 0. -/
theorem qws_3 : query_window_size_calc 3 = 0 := by
  unfold query_window_size_calc
  rw [npRound_eval _ 2 (by norm_num) (by norm_num [round_eq])]
  decide

/-- The window size computed from particle_size = 5: round(10/3) = 3 lowered
by 3 % 4 gives 0. -/
theorem qws_5 : query_window_size_calc 5 = 0 := by
  unfold query_window_size_calc
  rw [npRound_eval _ 3 (by norm_num) (by norm_num [round_eq])]
  decide

/-- The window size computed from particle_size = 300: round(200) = 200,
already a multiple of 4. -/
theorem qws_300 : query_window_size_calc 300 = 200 := by
  unfold query_window_size_calc
  rw [npRound_eval _ 200 (by norm_num) (by norm_num [round_eq])]
  decide

/-! ## Claim C2 -/

/-- A raw configuration that supplies query_image_size = 100 explicitly. -/
def rawSuppliedQis : RawConfig :=
  ⟨300, some 100, none, none, none, none, none, none, some 450, some 1, some "out".toList⟩

/-- C2 counterexample: with query_image_size supplied as 100, the derivation
block of Apple.__init__ still stores the computed window size 200 into
query_image_size (the supplied value does not survive), and the computed
value is not stored into the query_window_size field (which keeps its raw
value, here none). -/
theorem query_image_size_not_preserved :
    (applyDerive "/w".toList "/data/mrcs".toList rawSuppliedQis).map
        (fun d => (d.query_image_size, d.query_window_size)) = .ok (200, none) ∧
    rawSuppliedQis.query_image_size = some 100 ∧ ¬ (200 : Int) = 100 := by
  refine ⟨?_, rfl, by norm_num⟩
  rw [applyDerive_ok _ _ _ (by simp [rawSuppliedQis, qws_300])]
  simp [Except.map, rawSuppliedQis, qws_300]

/-- C2 amended: the defaulting rules for max_particle_size,
min_particle_size, minimum_overlap_amount, tau1, tau2 and output_dir are
applied only when the corresponding raw field is unset, and a supplied value
survives unchanged; query_image_size however is overwritten unconditionally
with the computed window size round(particle_size * 2 / 3) lowered to a
multiple of 4, and that computed value is stored in query_image_size while
the raw query_window_size field is carried through untouched. -/
theorem derivation_rules_conditional (cwd mrc : List Char) (c : RawConfig) (d : DerivedConfig)
    (h : applyDerive cwd mrc c = .ok d) :
    d.query_image_size = query_window_size_calc c.particle_size ∧
    d.query_window_size = c.query_window_size ∧
    (∀ v, c.max_particle_size = some v → d.max_particle_size = v) ∧
    (c.max_particle_size = none → d.max_particle_size = c.particle_size * 4) ∧
    (∀ v, c.min_particle_size = some v → d.min_particle_size = v) ∧
    (c.min_particle_size = none → d.min_particle_size = pyInt ((c.particle_size : ℚ) / 6)) ∧
    (∀ v, c.minimum_overlap_amount = some v → d.minimum_overlap_amount = v) ∧
    (c.minimum_overlap_amount = none →
      d.minimum_overlap_amount = pyInt ((c.particle_size : ℚ) / 10)) ∧
    (∀ v, c.tau1 = some v → d.tau1 = v) ∧
    (∀ v, c.tau2 = some v → d.tau2 = v) ∧
    (∀ v, c.output_dir = some v → d.output_dir = v) ∧
    (c.output_dir = none → d.output_dir = deriveOutputDir cwd mrc) := by
  have hq : ¬ query_window_size_calc c.particle_size = 0 := by
    intro h0
    rw [applyDerive_zero_div cwd mrc c h0] at h
    exact absurd h (by simp)
  rw [applyDerive_ok cwd mrc c hq, Except.ok.injEq] at h
  subst h
  refine ⟨rfl, rfl, ?_, ?_, ?_, ?_, ?_, ?_, ?_, ?_, ?_, ?_⟩ <;>
    first
    | (intro v hv; simp [hv])
    | (intro hv; simp [hv])

/-- A raw configuration mixing supplied and unset optional fields. -/
def rawMixed : RawConfig :=
  ⟨300, some 100, some 7, some 1200, none, some 30, some 48, none, some 450, some 1,
   some "out".toList⟩

/-- The derived state applyDerive produces from rawMixed. -/
def derivedMixed : DerivedConfig :=
  ⟨300, 200, some 7, 1200, 50, 30, 48, 480, some 450, some 1, "out".toList⟩

/-- Witness for the amended C2 at a concrete raw configuration. -/
theorem derivation_rules_conditional_witness :
    derivedMixed.query_image_size = query_window_size_calc rawMixed.particle_size ∧
    derivedMixed.query_window_size = rawMixed.query_window_size ∧
    derivedMixed.max_particle_size = 1200 ∧
    derivedMixed.min_particle_size = pyInt ((rawMixed.particle_size : ℚ) / 6) := by
  have h := derivation_rules_conditional "/w".toList "/data/mrcs".toList rawMixed derivedMixed
    (by
      rw [applyDerive_ok _ _ _ (by simp [rawMixed, qws_300])]
      simp only [rawMixed, derivedMixed, qws_300, Option.getD_some, Option.getD_none,
        Except.ok.injEq, DerivedConfig.mk.injEq]
      norm_num [pyInt])
  exact ⟨h.1, h.2.1, h.2.2.1 1200 rfl, h.2.2.2.2.2.1 rfl⟩

/-! ## Claim C3 -/

/-- Raw configuration with particle_size = 3 and all derivable fields unset. -/
def rawPs3 : RawConfig :=
  ⟨3, none, none, none, none, none, none, none, some 450, some 1, some "out".toList⟩

/-- Raw configuration with particle_size = 5 and all derivable fields unset. -/
def rawPs5 : RawConfig :=
  ⟨5, none, none, none, none, none, none, none, some 450, some 1, some "out".toList⟩

/-- C3, evaluated on the code: for particle_size = 3 the derived window size
is round(3 * 2 / 3) - 2 = 0, and for particle_size = 5 it is
round(10 / 3) - 3 = 0, so in both cases Apple.__init__ divides 4000 squared
by zero while computing qBox — before verify_input_values ever runs — and
the failure is a ZeroDivisionError, not a ConfigError from the particle-size
bound (and particle_size = 5 does not pass the derivation stage at all). -/
theorem particle_size_3_and_5_zero_division :
    query_window_size_calc 3 = 0 ∧ query_window_size_calc 5 = 0 ∧
    resolveConfig "/w".toList "/data/mrcs".toList rawPs3 = .error .zeroDivisionError ∧
    resolveConfig "/w".toList "/data/mrcs".toList rawPs5 = .error .zeroDivisionError := by
  refine ⟨qws_3, qws_5, ?_, ?_⟩
  · unfold resolveConfig
    rw [applyDerive_zero_div _ _ _ (by simpa [rawPs3] using qws_3)]
  · unfold resolveConfig
    rw [applyDerive_zero_div _ _ _ (by simpa [rawPs5] using qws_5)]

/-! ## Claim C4 -/

/-- Raw configuration with particle_size = 300 and every optional field
unset. -/
def rawPs300 : RawConfig :=
  ⟨300, none, none, none, none, none, none, none, none, none, none⟩

/-- C4: from particle_size = 300 with all other optional fields unset, the
derivation block computes the window size 200 (stored as the resolved
query_image_size), max_particle_size = 1200, min_particle_size = 50,
minimum_overlap_amount = 30, and with qBox = 4000^2 / 200^2 * 4 = 1600,
tau1 = 48 and tau2 = 480. -/
theorem derivation_values_ps300 :
    query_window_size_calc 300 = 200 ∧
    (applyDerive "/w".toList "/data/mrcs".toList rawPs300).map
        (fun d => (d.query_image_size, d.max_particle_size, d.min_particle_size,
                   d.minimum_overlap_amount, d.tau1, d.tau2)) =
      .ok (200, 1200, 50, 30, 48, 480) := by
  refine ⟨qws_300, ?_⟩
  rw [applyDerive_ok _ _ _ (by simp [rawPs300, qws_300])]
  simp only [Except.map, rawPs300, qws_300, Option.getD_none, Except.ok.injEq,
    Prod.mk.injEq]
  norm_num [pyInt]

/-! ## Claim C10 -/

/-- npRound never rounds below the floor of its argument. -/
theorem npRound_ge_floor (x : ℚ) : ⌊x⌋ ≤ npRound x := by
  unfold npRound
  split
  · split
    · exact le_refl _
    · omega
  · rw [round_eq]
    exact Int.floor_mono (by linarith)

/-- For particle sizes of at least 751 the computed window size is positive
(at least 497), so the qBox division cannot fail. -/
theorem query_window_size_calc_pos (p : Int) (hp : 751 ≤ p) :
    0 < query_window_size_calc p := by
  simp only [query_window_size_calc]
  have h1 : (500 : Int) ≤ ⌊(p : ℚ) * 2 / 3⌋ := by
    rw [Int.le_floor]
    have hc : (751 : ℚ) ≤ (p : ℚ) := by exact_mod_cast hp
    push_cast
    linarith
  have h2 := npRound_ge_floor ((p : ℚ) * 2 / 3)
  have h3 : npRound ((p : ℚ) * 2 / 3) % 4 < 4 := Int.emod_lt_of_pos _ (by norm_num)
  have h4 : 0 ≤ npRound ((p : ℚ) * 2 / 3) % 4 := Int.emod_nonneg _ (by norm_num)
  omega

/-- C10: whenever max_particle_size is unset and 751 ≤ particle_size < 3000,
the default max_particle_size = particle_size * 4 exceeds 3000, so
resolution always fails with the ConfigError of the max-particle-size
invariant — the first check of verify_input_values — whatever the other raw
fields contain. -/
theorem max_particle_default_always_invalid (cwd mrc : List Char) (c : RawConfig)
    (hmax : c.max_particle_size = none) (hlo : 751 ≤ c.particle_size)
    (hhi : c.particle_size < 3000) :
    resolveConfig cwd mrc c = .error (.configError .maxParticleSize) := by
  have hq : ¬ query_window_size_calc c.particle_size = 0 := by
    have := query_window_size_calc_pos c.particle_size hlo
    omega
  rw [resolveConfig_ok_step cwd mrc c _ (applyDerive_ok cwd mrc c hq)]
  have hcond : ¬ (1 ≤ c.max_particle_size.getD (c.particle_size * 4) ∧
      c.max_particle_size.getD (c.particle_size * 4) ≤ 3000) := by
    rw [hmax, Option.getD_none]
    omega
  rw [verify_fails_max _ hcond]

/-- Raw configuration with particle_size = 751 and max_particle_size
unset. -/
def rawPs751 : RawConfig :=
  ⟨751, none, none, none, none, none, none, none, some 1000, some 1, some "out".toList⟩

/-- Witness for C10 at particle_size = 751. -/
theorem max_particle_default_always_invalid_witness :
    resolveConfig "/w".toList "/data/mrcs".toList rawPs751 =
      .error (.configError .maxParticleSize) :=
  max_particle_default_always_invalid _ _ _ rfl (by decide) (by decide)

/-! ## Claim C5 -/

/-- replaceAuxF leaves a string containing no occurrence of the pattern
unchanged, for every fuel value. -/
theorem replaceAuxF_eq_self (p : Char) (pt rep : List Char) :
    ∀ fuel s, ¬ (p :: pt) <:+: s → replaceAuxF p pt rep fuel s = s := by
  intro fuel
  induction fuel with
  | zero => intro s _; cases s <;> rfl
  | succ n ih =>
    intro s hs
    cases s with
    | nil => rfl
    | cons c rest =>
      have hpre : ¬ ((p :: pt).isPrefixOf (c :: rest) = true) := fun hp =>
        hs ( List.isPrefixOf_iff_prefix.mp hp).isInfix
      rw [replaceAuxF, if_neg hpre, ih rest (fun h => hs (List.infix_cons h))]

/-- Replacing a nonempty pat inside pat ++ suffix, when pat occurs nowhere
in suffix, rewrites exactly the leading occurrence. -/
theorem pyReplace_leading_match (pat rep suffix : List Char) (hne : ¬ pat = [])
    (hocc : ¬ pat <:+: suffix) :
    pyReplace (pat ++ suffix) pat rep = rep ++ suffix := by
  cases pat with
  | nil => exact absurd rfl hne
  | cons p pt =>
    show replaceAuxF p pt rep ((p :: pt) ++ suffix).length ((p :: pt) ++ suffix) = rep ++ suffix
    rw [List.cons_append, List.length_cons, replaceAuxF]
    rw [if_pos ( List.isPrefixOf_iff_prefix.mpr
      (by rw [← List.cons_append]; exact List.prefix_append _ _))]
    rw [List.drop_left, replaceAuxF_eq_self p pt rep _ suffix hocc]

/-- C5 counterexample: for input_dir "/data/data" the parent string "/data"
occurs twice in the absolute path, str.replace rewrites both occurrences,
and the produced output_dir "star_dirstar_dir" is not the sibling path
"star_dir/data" obtained by replacing only the parent prefix. -/
theorem output_dir_not_prefix_replacement :
    deriveOutputDir "/".toList "/data/data".toList = "star_dirstar_dir".toList ∧
    ¬ deriveOutputDir "/".toList "/data/data".toList = "star_dir/data".toList ∧
    abspath "/".toList "/data/data".toList = dirname "/data/data".toList ++ "/data".toList := by
  decide

/-- C5 amended: output_dir is derived by replacing every occurrence of
dirname(input_dir) — computed on the raw, possibly relative, input string —
inside abspath(input_dir); the result is the sibling path "star_dir" ++ rest
exactly when dirname(input_dir) is nonempty and occurs in the absolute path
only as its leading prefix. When the parent string recurs as a substring, or
input_dir is a bare name with empty dirname, the result is not a sibling
path. -/
theorem output_dir_sibling_when_parent_unique (cwd mrc suffix : List Char)
    (hne : ¬ dirname mrc = [])
    (habs : abspath cwd mrc = dirname mrc ++ suffix)
    (hocc : ¬ dirname mrc <:+: suffix) :
    deriveOutputDir cwd mrc = "star_dir".toList ++ suffix := by
  unfold deriveOutputDir
  rw [habs]
  exact pyReplace_leading_match _ _ _ hne hocc

/-- Witness for the amended C5: for "/data/mrcs" the parent "/data" occurs
only as the leading prefix and the derived output_dir is the sibling
"star_dir/mrcs". -/
theorem output_dir_sibling_when_parent_unique_witness :
    abspath "/".toList "/data/mrcs".toList = dirname "/data/mrcs".toList ++ "/mrcs".toList ∧
    deriveOutputDir "/".toList "/data/mrcs".toList = "star_dir".toList ++ "/mrcs".toList :=
  ⟨by decide, output_dir_sibling_when_parent_unique _ _ _ (by decide) (by decide) (by decide)⟩

/-! ## Claim C6 -/

/-- C6: with output_dir unset, the first resolution of the output directory
always succeeds, and a second resolution against the filesystem left by the
first returns the same path, performs no change, and in particular does not
raise — the directory already exists and the os.path.exists guard skips
os.makedirs. -/
theorem output_dir_idempotent (cwd mrc : List Char) (fs : List (List Char)) :
    (∃ pr, outputDirStep cwd mrc none fs = .ok pr) ∧
    (∀ d1 fs1, outputDirStep cwd mrc none fs = .ok (d1, fs1) →
      d1 ∈ fs1 ∧ outputDirStep cwd mrc none fs1 = .ok (d1, fs1)) := by
  by_cases h : deriveOutputDir cwd mrc ∈ fs
  · refine ⟨⟨(deriveOutputDir cwd mrc, fs), by simp [outputDirStep, h]⟩, ?_⟩
    intro d1 fs1 heq
    simp only [outputDirStep, if_pos h, Except.ok.injEq, Prod.mk.injEq] at heq
    obtain ⟨rfl, rfl⟩ := heq
    exact ⟨h, by simp [outputDirStep, h]⟩
  · refine ⟨⟨(deriveOutputDir cwd mrc, deriveOutputDir cwd mrc :: fs),
      by simp [outputDirStep, makedirs, h]⟩, ?_⟩
    intro d1 fs1 heq
    simp only [outputDirStep, if_neg h, makedirs, Except.ok.injEq, Prod.mk.injEq] at heq
    obtain ⟨rfl, rfl⟩ := heq
    refine ⟨List.mem_cons_self _ _, ?_⟩
    simp [outputDirStep]

/-- Witness for C6: second resolution over the filesystem produced by the
first returns the same sibling path and succeeds. -/
theorem output_dir_idempotent_witness :
    "star_dir/mrcs".toList ∈ ["star_dir/mrcs".toList] ∧
    outputDirStep "/".toList "/data/mrcs".toList none ["star_dir/mrcs".toList] =
      .ok ("star_dir/mrcs".toList, ["star_dir/mrcs".toList]) :=
  (output_dir_idempotent "/".toList "/data/mrcs".toList []).2 _ _ (by decide)

/-! ## Claim C7 -/

/-- takeWhile notDot consumes exactly the reversed "mrc" of a reversed
".mrc" suffix, whatever follows the dot. -/
theorem takeWhile_notDot_mrc_rev (x : List Char) :
    List.takeWhile notDot (('c' :: 'r' :: 'm' :: '.' :: []) ++ x) = 'c' :: 'r' :: 'm' :: [] := rfl

/-- A name matched by the glob pattern (no leading dot, ends in ".mrc") and
containing no '/' has splitext extension exactly ".mrc". -/
theorem splitextExt_of_glob (name : List Char) (hm : globMrcMatch name = true)
    (hns : ¬ '/' ∈ name) : splitextExt name = ".mrc".toList := by
  rw [globMrcMatch, Bool.and_eq_true, decide_eq_true_eq] at hm
  obtain ⟨hhid, hsuf⟩ := hm
  obtain ⟨pre, hpre⟩ := List.isSuffixOf_iff_suffix.mp hsuf
  have hmrc : ".mrc".toList = '.' :: 'm' :: 'r' :: 'c' :: [] := rfl
  subst hpre
  rw [hmrc] at hhid hns ⊢
  cases pre with
  | nil => exact absurd rfl hhid
  | cons c pre' =>
    have hc : ¬ c = '.' := by
      intro hcEq
      subst hcEq
      exact hhid rfl
    have hbase : (((c :: pre') ++ ('.' :: 'm' :: 'r' :: 'c' :: [])).reverse.takeWhile
        notSlash).reverse = (c :: pre') ++ ('.' :: 'm' :: 'r' :: 'c' :: []) := by
      rw [List.takeWhile_eq_self_iff.mpr, List.reverse_reverse]
      intro a ha
      rw [notSlash, decide_eq_true_eq]
      intro haEq
      subst haEq
      exact hns (List.mem_reverse.mp ha)
    have hrev : ((c :: pre') ++ ('.' :: 'm' :: 'r' :: 'c' :: [])).reverse
        = ('c' :: 'r' :: 'm' :: '.' :: []) ++ (c :: pre').reverse := by
      rw [List.reverse_append]
      rfl
    have h1 : ¬ (('c' :: 'r' :: 'm' :: []).length =
        ((c :: pre') ++ ('.' :: 'm' :: 'r' :: 'c' :: [])).length) := by
      simp only [List.length_cons, List.length_append, List.length_nil]
      omega
    have hidx : ((c :: pre') ++ ('.' :: 'm' :: 'r' :: 'c' :: [])).length -
        ('c' :: 'r' :: 'm' :: []).length - 1 = (c :: pre').length := by
      simp only [List.length_cons, List.length_append, List.length_nil]
      omega
    have h3 : ¬ ((c :: pre').all isDot = true) := by
      simp [List.all_cons, isDot, hc]
    simp only [splitextExt]
    rw [hbase, hrev, takeWhile_notDot_mrc_rev, if_neg h1, hidx, List.take_left, if_neg h3]
    decide

/-- C7 counterexample: a directory whose only entry is ".h.mrc" contains
exactly one entry with splitext extension ".mrc" (M = 1), yet pick_particles
dispatches zero jobs for it — glob treats the leading-dot name as hidden and
the pattern "*.mrc" never matches it. -/
theorem hidden_mrc_entry_not_dispatched :
    (pickParticlesDispatch [".h.mrc".toList]).length = 0 ∧
    (List.filter process_micrograph_runs [".h.mrc".toList]).length = 1 := by
  decide

/-- C7 amended: pick_particles dispatches exactly one job per non-hidden
directory entry matching *.mrc (name not starting with '.' and ending in
".mrc"); hidden entries are skipped even when their splitext extension is
exactly ".mrc". Every dispatched name (directory entries contain no '/')
has extension exactly ".mrc" and passes the process_micrograph guard, so a
non-.mrc file is never handed to the external pipeline; under a
duplicate-free enumeration each matching entry is dispatched exactly once;
and the run trace is the same for every pool size, one pipeline invocation
per dispatched file. -/
theorem batch_dispatch_coverage (proc proc2 : Nat) (entries : List (List Char)) :
    (∀ name ∈ pickParticlesDispatch entries, globMrcMatch name = true) ∧
    (∀ name ∈ pickParticlesDispatch entries, ¬ '/' ∈ name →
        splitextExt name = ".mrc".toList ∧ process_micrograph_runs name = true) ∧
    (entries.Nodup → ∀ name ∈ entries, globMrcMatch name = true →
        List.count name (pickParticlesDispatch entries) = 1) ∧
    pickParticlesRun proc entries = pickParticlesRun proc2 entries ∧
    pickParticlesRun proc entries =
      (pickParticlesDispatch entries).map (fun n => (n, process_micrograph_runs n)) := by
  refine ⟨?_, ?_, ?_, rfl, rfl⟩
  · intro name hmem
    exact List.of_mem_filter hmem
  · intro name hmem hns
    have hm := List.of_mem_filter hmem
    have hext := splitextExt_of_glob name hm hns
    exact ⟨hext, decide_eq_true (by rw [hext])⟩
  · intro hnd name hmem hm
    rw [pickParticlesDispatch, List.count_filter hm]
    induction entries with
    | nil => exact absurd hmem (List.not_mem_nil name)
    | cons x xs ih =>
      obtain ⟨hx, hxs⟩ := List.nodup_cons.mp hnd
      rcases List.mem_cons.mp hmem with rfl | hmem2
      · rw [List.count_cons_self, List.count_eq_zero.mpr hx]
      · have hne : name ≠ x := fun hEq => hx (hEq ▸ hmem2)
        rw [List.count_cons_of_ne hne, ih hxs hmem2]

/-- Witness for the amended C7 over the entries ["a.mrc", "b.txt"] with pool
sizes 1 and 2. -/
theorem batch_dispatch_coverage_witness :
    splitextExt "a.mrc".toList = ".mrc".toList ∧
    List.count "a.mrc".toList (pickParticlesDispatch ["a.mrc".toList, "b.txt".toList]) = 1 ∧
    pickParticlesRun 1 ["a.mrc".toList, "b.txt".toList] =
      pickParticlesRun 2 ["a.mrc".toList, "b.txt".toList] := by
  have h := batch_dispatch_coverage 1 2 ["a.mrc".toList, "b.txt".toList]
  exact ⟨(h.2.1 "a.mrc".toList (by decide) (by decide)).1,
    h.2.2.1 (by decide) "a.mrc".toList (by decide) (by decide),
    h.2.2.2.1⟩

/-! ## Claim C8 -/

/-- If any element of the list makes the job fail, the modelled Pool.map
fails as a whole. -/
theorem exceptMapList_error (job : List Char → Except PyError Unit) :
    ∀ (l : List (List Char)) name e, name ∈ l → job name = .error e →
      ∃ e2, exceptMapList job l = .error e2 := by
  intro l
  induction l with
  | nil => intro name e hmem _; exact absurd hmem (List.not_mem_nil name)
  | cons x xs ih =>
    intro name e hmem hfail
    cases hx : job x with
    | error ex => exact ⟨ex, by rw [exceptMapList, hx]⟩
    | ok y =>
      rcases List.mem_cons.mp hmem with rfl | hmem2
      · rw [hx] at hfail
        exact absurd hfail (by simp)
      · obtain ⟨e2, hrec⟩ := ih name e hmem2 hfail
        exact ⟨e2, by rw [exceptMapList, hx, hrec]⟩

/-- If the modelled Pool.map returns a result list, every job succeeded. -/
theorem exceptMapList_ok (job : List Char → Except PyError Unit) :
    ∀ (l : List (List Char)) rs, exceptMapList job l = .ok rs →
      ∀ name ∈ l, job name = .ok () := by
  intro l
  induction l with
  | nil => intro rs _ name hmem; exact absurd hmem (List.not_mem_nil name)
  | cons x xs ih =>
    intro rs hok name hmem
    cases hx : job x with
    | error ex => rw [exceptMapList, hx] at hok; exact absurd hok (by simp)
    | ok y =>
      rw [exceptMapList, hx] at hok
      cases hrec : exceptMapList job xs with
      | error e2 => rw [hrec] at hok; exact absurd hok (by simp)
      | ok ys =>
        rcases List.mem_cons.mp hmem with rfl | hmem2
        · rw [hx]
        · exact ih ys hrec name hmem2

/-- C8: if any dispatched file's job raises an unrecovered error, the batch
run of pick_particles does not complete successfully — some error propagates
out of the pool — and, conversely, a successful batch run means every
dispatched job succeeded, so no partial-success result set is ever
returned. -/
theorem batch_fatal_propagation (proc : Nat) (job : List Char → Except PyError Unit)
    (entries : List (List Char)) :
    (∀ name e, name ∈ pickParticlesDispatch entries → job name = .error e →
      ∃ e2, pickParticlesBatch proc job entries = .error e2) ∧
    (∀ rs, pickParticlesBatch proc job entries = .ok rs →
      ∀ name ∈ pickParticlesDispatch entries, job name = .ok ()) := by
  constructor
  · intro name e hmem hfail
    exact exceptMapList_error job (pickParticlesDispatch entries) name e hmem hfail
  · intro rs hok name hmem
    exact exceptMapList_ok job (pickParticlesDispatch entries) rs hok name hmem

/-- A job that raises a ProcessingError on "a.mrc" and succeeds elsewhere. -/
def jobFailOnA : List Char → Except PyError Unit :=
  fun n => if n = "a.mrc".toList then .error .typeError else .ok ()

/-- Witness for C8: with entries ["a.mrc", "b.mrc"] and a job failing on
"a.mrc", the whole batch reports an error. -/
theorem batch_fatal_propagation_witness :
    ∃ e2, pickParticlesBatch 1 jobFailOnA ["a.mrc".toList, "b.mrc".toList] = .error e2 :=
  (batch_fatal_propagation 1 jobFailOnA ["a.mrc".toList, "b.mrc".toList]).1
    "a.mrc".toList .typeError (by decide) (by decide)
